import Mathlib

/-!
The data-access layer `db/db.go` of listing-service.

A shallow embedding of the six repository operations of
`src/cmd/listing-service/db/db.go` (`CreateListing`, `CreateOwner`,
`GetOwners`, `GetListings`, `GetOwner`, `GetListing`) together with a small
executable model of the document store they talk to.

* Go pointers that may be nil are `Option`, Go `error` values are
  `Option Error`, a Go `(result, error)` pair is a Lean pair.
* The state of the document store is explicit (`DB`); every operation that
  writes returns the new state.
* What the outside world decides during a call (the identifier generated for
  an insert, a failure reported by the store, the wall clock) is an explicit
  argument of the operation.
* `log.Fatal` ends the process; the scans therefore return a `ScanOutcome`.
-/

namespace ListingService

/-! ## Identifiers: `primitive.ObjectID` -/

/-- One octet. -/
abbrev Byte := Fin 256

/-- Error values that can reach a caller of this layer. -/
inductive Error where
  /-- Identifier string whose length is not 24 (`primitive.ErrInvalidHex`). -/
  | ErrInvalidHex
  /-- Identifier string holding a byte that is no hex digit
  (`hex.InvalidByteError`; the offending byte is not kept). -/
  | InvalidByteError
  /-- Exact-match query without a matching document (`mongo.ErrNoDocuments`). -/
  | ErrNoDocuments
  /-- A document value that does not fit the field it is decoded into. -/
  | decode (key : String)
  /-- Any failure reported by the store or the driver (write error, timeout, network). -/
  | store (msg : String)
deriving DecidableEq, Repr

/-- The store identifier: an array of twelve bytes (`[12]byte`). -/
structure ObjectID where
  bytes : List Byte
  size : bytes.length = 12
deriving DecidableEq, Repr

/-- The zero value of the identifier type, twelve zero bytes (`primitive.NilObjectID`). -/
def NilObjectID : ObjectID := ⟨List.replicate 12 0, by simp⟩

/-- Go `copy(oid[:], b)` into a zeroed twelve-byte array. -/
def copy12 (b : List Byte) : ObjectID :=
  ⟨(b ++ List.replicate 12 0).take 12, by simp⟩

/-- The digit table `0123456789abcdef` of `ObjectID.Hex`. -/
def hexDigit (n : Fin 16) : Char :=
  if n.val < 10 then Char.ofNat (48 + n.val) else Char.ofNat (87 + n.val)

/-- Two lowercase hex digits of one byte, high nibble first. -/
def encodeByte (b : Byte) : List Char :=
  [hexDigit ⟨b.val / 16, by omega⟩, hexDigit ⟨b.val % 16, by omega⟩]

/-- Lowercase hex rendering of a byte sequence. -/
def hexEncode : List Byte → List Char
  | [] => []
  | b :: rest => encodeByte b ++ hexEncode rest

/-- The method `ObjectID.Hex`: the identifier as a lowercase hex string. -/
def ObjectID.Hex (id : ObjectID) : String := String.mk (hexEncode id.bytes)

/-- Value of one hex digit, either case (`fromHexChar` of `encoding/hex`). -/
def fromHexChar (c : Char) : Option (Fin 16) :=
  if h0 : 48 ≤ c.toNat ∧ c.toNat ≤ 57 then some ⟨c.toNat - 48, by omega⟩
  else if ha : 97 ≤ c.toNat ∧ c.toNat ≤ 102 then some ⟨c.toNat - 97 + 10, by omega⟩
  else if hA : 65 ≤ c.toNat ∧ c.toNat ≤ 70 then some ⟨c.toNat - 65 + 10, by omega⟩
  else none

/-- One byte from its two nibbles. -/
def joinNibbles (hi lo : Fin 16) : Byte := ⟨hi.val * 16 + lo.val, by omega⟩

/-- The function `hex.Decode`: two digits per byte; any other character, or a dangling
digit, fails. -/
def hexDecode : List Char → Option (List Byte)
  | [] => some []
  | [_] => none
  | a :: b :: rest =>
    match fromHexChar a, fromHexChar b, hexDecode rest with
    | some hi, some lo, some bs => some (joinNibbles hi lo :: bs)
    | _, _, _ => none

/-- The function `primitive.ObjectIDFromHex`: the string must be 24 bytes long
and decode as hex; on failure the zero identifier is returned with the error. -/
def ObjectIDFromHex (s : String) : ObjectID × Option Error :=
  if s.utf8ByteSize ≠ 24 then (NilObjectID, some Error.ErrInvalidHex)
  else
    match hexDecode s.data with
    | none => (NilObjectID, some Error.InvalidByteError)
    | some b => (copy12 b, none)

/-! ## The model types of `graph/model` -/

/-- Modelled from the spec: the input shape `model.NewOwner` (its declaration
is not among the sources): the user-supplied fields name, email and phone. -/
structure NewOwner where
  Name : String
  Email : String
  Phone : String
deriving DecidableEq, Repr

/-- Modelled from the spec: the entity `model.Owner` (its declaration is not
among the sources): string-encoded identifier, name, email, phone. -/
structure Owner where
  ID : String
  Name : String
  Email : String
  Phone : String
deriving DecidableEq, Repr

/-- Modelled from the spec: the input shape `model.NewListing` (its declaration
is not among the sources): owner identifier, description and location. -/
structure NewListing where
  OwnerID : String
  Description : String
  Location : String
deriving DecidableEq, Repr

/-- Modelled from the spec: the enumerated `model.Status` (its declaration is
not among the sources), a string type whose zero value is the empty string. -/
abbrev Status := String

/-- Modelled from the spec: the constant `model.StatusNotStarted` (its
declaration is not among the sources), the "not started" value of the
enumeration. -/
def StatusNotStarted : Status := "NOT_STARTED"

/-- A point in time (`time.Time`), counted from the zero value of the type. -/
structure Time where
  nanos : Int
deriving DecidableEq, Repr

/-- The zero value of `time.Time`. -/
def Time.zero : Time := ⟨0⟩

/-- Modelled from the spec: the entity `model.Listing` (its declaration is not
among the sources): string-encoded identifier, owner identifier, description,
location, creation timestamp and status. -/
structure Listing where
  ID : String
  OwnerID : String
  Description : String
  Location : String
  CreatedAt : Time
  Status : ListingService.Status
deriving DecidableEq, Repr

/-! ## The document store -/

/-- A value stored under a key of a document. -/
inductive Value where
  | objectID (id : ObjectID)
  | string (s : String)
  | dateTime (t : Time)
  | null
  /-- A value of any type that neither a string field nor a time field accepts
  (number, boolean, embedded document, array). -/
  | other
deriving DecidableEq, Repr

/-- A document: its elements in order. -/
abbrev Document := List (String × Value)

/-- A collection: its documents in natural (insertion) order. -/
abbrev Collection := List Document

/-- A logical database: its collections by name; a collection never written
to is empty. -/
abbrev Database := String → Collection

/-- What the connected client reaches: the databases by name. -/
abbrev Client := String → Database

/-- The repository handle `DB` of the source; the state of the store behind
`client` is part of the value. -/
structure DB where
  client : Client

/-- The source's `colHelper`: the named collection of database `listings-db`. -/
def colHelper (db : DB) (collectionName : String) : Collection :=
  db.client "listings-db" collectionName

/-- The store after the named collection of `listings-db` was replaced by `c`. -/
def setCol (db : DB) (collectionName : String) (c : Collection) : DB :=
  ⟨fun d n => if d = "listings-db" ∧ n = collectionName then c else db.client d n⟩

/-- The document has the identifier `id` under `_id`: the filter of the two
lookups, a map with the one key `_id`. -/
def hasID (id : ObjectID) (d : Document) : Bool :=
  decide (d.lookup "_id" = some (Value.objectID id))

/-- What the outside world decides during an insert: the fresh identifier the
driver generates for a document without `_id`, and a failure if the store
reports one. -/
structure InsertEnv where
  generated : ObjectID
  fault : Option Error

/-- The error of the unique index on `_id`. -/
def duplicateKey : Error := Error.store "E11000 duplicate key error"

/-- The method `Collection.InsertOne` on a document without `_id`: the
generated identifier is put in front and the document appended; the insert
fails, and the collection is taken to stay as it was, when the store reports a
failure or the identifier is already taken. Returns the collection afterwards
and the pair of `InsertedID` and `err`. -/
def InsertOne (c : Collection) (doc : Document) (env : InsertEnv) :
    Collection × Except Error ObjectID :=
  match env.fault with
  | some e => (c, Except.error e)
  | none =>
    if c.any (hasID env.generated) then (c, Except.error duplicateKey)
    else (c ++ [("_id", Value.objectID env.generated) :: doc], Except.ok env.generated)

/-- The result of `Collection.FindOne`: an error or the first matching document. -/
inductive SingleResult where
  | err (e : Error)
  | doc (d : Document)
deriving DecidableEq, Repr

/-- The method `Collection.FindOne` with the filter on `_id`; `fault` is the
failure the store reports for this query, if any. -/
def FindOne (c : Collection) (id : ObjectID) (fault : Option Error) : SingleResult :=
  match fault with
  | some e => SingleResult.err e
  | none =>
    match c.find? (hasID id) with
    | some d => SingleResult.doc d
    | none => SingleResult.err Error.ErrNoDocuments

/-- How the store fails during a whole-collection scan. -/
inductive ScanFault where
  /-- The scan runs to the end. -/
  | none
  /-- The query itself is rejected: `Find` returns the error. -/
  | atQuery (e : Error)
  /-- The cursor delivers `delivered` documents (the batches fetched so far),
  then fetching the next batch fails: `Next` returns false and `Err` holds the
  error. -/
  | duringIteration (delivered : Nat) (e : Error)
deriving DecidableEq, Repr

/-- A result cursor: the documents `Next` delivers before it returns false,
and what `Err` reports afterwards. -/
structure Cursor where
  docs : List Document
  err : Option Error
deriving DecidableEq, Repr

/-- The method `Collection.Find` with the empty filter. -/
def Find (c : Collection) (fault : ScanFault) : Except Error Cursor :=
  match fault with
  | ScanFault.none => Except.ok ⟨c, Option.none⟩
  | ScanFault.atQuery e => Except.error e
  | ScanFault.duringIteration n e => Except.ok ⟨c.take n, some e⟩

/-! ## Encoding and decoding of the model types -/

/-- Modelled from the spec: the document body written for a `NewOwner`
(the struct tags are not among the sources): name, email, phone. -/
def marshalNewOwner (input : NewOwner) : Document :=
  [("name", Value.string input.Name), ("email", Value.string input.Email),
   ("phone", Value.string input.Phone)]

/-- Modelled from the spec: the document body written for a `NewListing`
(the struct tags are not among the sources): owner identifier, description,
location; neither status nor creation timestamp. -/
def marshalNewListing (input : NewListing) : Document :=
  [("ownerid", Value.string input.OwnerID), ("description", Value.string input.Description),
   ("location", Value.string input.Location)]

/-- Decoding a value into a Go string field: a string as it is, an identifier
as its hex string, null as the zero value. -/
def decodeString (key : String) : Value → Except Error String
  | Value.string s => Except.ok s
  | Value.objectID id => Except.ok id.Hex
  | Value.null => Except.ok ""
  | _ => Except.error (Error.decode key)

/-- Decoding a value into a `time.Time` field: a datetime as it is, null as
the zero value (strings are not parsed as timestamps here). -/
def decodeTime (key : String) : Value → Except Error Time
  | Value.dateTime t => Except.ok t
  | Value.null => Except.ok Time.zero
  | _ => Except.error (Error.decode key)

/-- Modelled from the spec: one document element decoded into an `Owner`
(the struct tags are not among the sources); keys are compared exactly and
unknown keys are skipped. -/
def decodeOwnerElem (o : Owner) (key : String) (v : Value) : Except Error Owner :=
  if key = "_id" then (decodeString key v).map fun s => { o with ID := s }
  else if key = "name" then (decodeString key v).map fun s => { o with Name := s }
  else if key = "email" then (decodeString key v).map fun s => { o with Email := s }
  else if key = "phone" then (decodeString key v).map fun s => { o with Phone := s }
  else Except.ok o

/-- The elements of a document decoded in order into `o`; the first element
that does not fit stops the decoding, what was filled in before stays. -/
def decodeOwnerInto : Document → Owner → Owner × Option Error
  | [], o => (o, none)
  | (key, v) :: rest, o =>
    match decodeOwnerElem o key v with
    | Except.ok o1 => decodeOwnerInto rest o1
    | Except.error e => (o, some e)

/-- Decoding a document into a freshly allocated `Owner`. -/
def decodeOwner (d : Document) : Owner × Option Error :=
  decodeOwnerInto d ⟨"", "", "", ""⟩

/-- Modelled from the spec: one document element decoded into a `Listing`
(the struct tags are not among the sources); keys are compared exactly and
unknown keys are skipped. -/
def decodeListingElem (l : Listing) (key : String) (v : Value) : Except Error Listing :=
  if key = "_id" then (decodeString key v).map fun s => { l with ID := s }
  else if key = "ownerid" then (decodeString key v).map fun s => { l with OwnerID := s }
  else if key = "description" then (decodeString key v).map fun s => { l with Description := s }
  else if key = "location" then (decodeString key v).map fun s => { l with Location := s }
  else if key = "createdat" then (decodeTime key v).map fun t => { l with CreatedAt := t }
  else if key = "status" then (decodeString key v).map fun s => { l with Status := s }
  else Except.ok l

/-- The elements of a document decoded in order into `l`. -/
def decodeListingInto : Document → Listing → Listing × Option Error
  | [], l => (l, none)
  | (key, v) :: rest, l =>
    match decodeListingElem l key v with
    | Except.ok l1 => decodeListingInto rest l1
    | Except.error e => (l, some e)

/-- Decoding a document into a freshly allocated `Listing`. -/
def decodeListing (d : Document) : Listing × Option Error :=
  decodeListingInto d ⟨"", "", "", "", Time.zero, ""⟩

/-- The call `SingleResult.Decode(&owner)` with `owner` a nil pointer: the
error of the query leaves it nil; otherwise an `Owner` is allocated and filled. -/
def SingleResult.DecodeOwner : SingleResult → Option Owner × Option Error
  | SingleResult.err e => (none, some e)
  | SingleResult.doc d => (some (decodeOwner d).1, (decodeOwner d).2)

/-- The call `SingleResult.Decode(&listing)` with `listing` a nil pointer. -/
def SingleResult.DecodeListing : SingleResult → Option Listing × Option Error
  | SingleResult.err e => (none, some e)
  | SingleResult.doc d => (some (decodeListing d).1, (decodeListing d).2)

/-! ## The operations of `db.go` -/

/-- The method `DB.CreateListing`; `now` is what `time.Now()` returns. -/
def CreateListing (db : DB) (input : NewListing) (env : InsertEnv) (now : Time) :
    DB × (Option Listing × Option Error) :=
  let collection := colHelper db "listing"
  match InsertOne collection (marshalNewListing input) env with
  | (c, Except.error err) => (setCol db "listing" c, (none, some err))
  | (c, Except.ok res) =>
    (setCol db "listing" c,
      (some { ID := res.Hex, OwnerID := input.OwnerID, Description := input.Description,
              Location := input.Location, CreatedAt := now, Status := StatusNotStarted },
       none))

/-- The method `DB.CreateOwner`. -/
def CreateOwner (db : DB) (input : NewOwner) (env : InsertEnv) :
    DB × (Option Owner × Option Error) :=
  let collection := colHelper db "owner"
  match InsertOne collection (marshalNewOwner input) env with
  | (c, Except.error err) => (setCol db "owner" c, (none, some err))
  | (c, Except.ok res) =>
    (setCol db "owner" c,
      (some { ID := res.Hex, Name := input.Name, Email := input.Email, Phone := input.Phone },
       none))

/-- How a scan ends: `log.Fatal` terminates the process, otherwise the
function returns a slice and an error. -/
inductive ScanOutcome (α : Type) where
  | fatal (e : Error)
  | returned (entries : List α) (err : Option Error)
deriving DecidableEq, Repr

/-- The loop `for res.Next(ctx)` of `GetOwners` over the documents the cursor
delivers, with the variables `owners` and `err`. -/
def GetOwners.loop : List Document → List Owner → Option Error → ScanOutcome Owner
  | [], owners, err => ScanOutcome.returned owners err
  | d :: rest, owners, _ =>
    match decodeOwner d with
    | (_, some e) => ScanOutcome.fatal e
    | (singleOwner, none) => GetOwners.loop rest (owners ++ [singleOwner]) none

/-- The method `DB.GetOwners`: the error of `Find` is returned with a nil
slice; `Err` of the cursor is not consulted after the loop. -/
def GetOwners (db : DB) (fault : ScanFault) : ScanOutcome Owner :=
  let collection := colHelper db "owner"
  match Find collection fault with
  | Except.error err => ScanOutcome.returned [] (some err)
  | Except.ok res => GetOwners.loop res.docs [] none

/-- The loop `for res.Next(ctx)` of `GetListings`. -/
def GetListings.loop : List Document → List Listing → Option Error → ScanOutcome Listing
  | [], listings, err => ScanOutcome.returned listings err
  | d :: rest, listings, _ =>
    match decodeListing d with
    | (_, some e) => ScanOutcome.fatal e
    | (singleListing, none) => GetListings.loop rest (listings ++ [singleListing]) none

/-- The method `DB.GetListings`: the error of `Find` is returned with a nil
slice; `Err` of the cursor is not consulted after the loop. -/
def GetListings (db : DB) (fault : ScanFault) : ScanOutcome Listing :=
  let collection := colHelper db "listing"
  match Find collection fault with
  | Except.error err => ScanOutcome.returned [] (some err)
  | Except.ok res => GetListings.loop res.docs [] none

/-- The method `DB.GetOwner`: the conversion error is dropped (`objId, _ :=`). -/
def GetOwner (db : DB) (ID : String) (fault : Option Error) : Option Owner × Option Error :=
  let collection := colHelper db "owner"
  let objId := (ObjectIDFromHex ID).1
  (FindOne collection objId fault).DecodeOwner

/-- The method `DB.GetListing`: the conversion error is dropped (`objId, _ :=`). -/
def GetListing (db : DB) (ID : String) (fault : Option Error) : Option Listing × Option Error :=
  let collection := colHelper db "listing"
  let objId := (ObjectIDFromHex ID).1
  (FindOne collection objId fault).DecodeListing

/-- A store without any document. -/
def emptyDB : DB := ⟨fun _ _ => []⟩

/-- A run of `CreateOwner` calls, one per element of `calls`, each on the
store the call before it left: the store after the last call and what the calls
returned, in call order. -/
def createOwners : DB → List (NewOwner × InsertEnv) → DB × List (Option Owner × Option Error)
  | db, [] => (db, [])
  | db, (input, env) :: rest =>
    ((createOwners (CreateOwner db input env).1 rest).1,
      (CreateOwner db input env).2 :: (createOwners (CreateOwner db input env).1 rest).2)

/-- The document a successful `CreateOwner` call leaves in the store. -/
def ownerDoc (call : NewOwner × InsertEnv) : Document :=
  ("_id", Value.objectID call.2.generated) :: marshalNewOwner call.1

/-- The Owner a successful `CreateOwner` call returns. -/
def createdOwner (call : NewOwner × InsertEnv) : Owner :=
  ⟨call.2.generated.Hex, call.1.Name, call.1.Email, call.1.Phone⟩

/-! ## Sample data -/

/-- An identifier as the driver generates them. -/
def sampleID : ObjectID :=
  copy12 [0x65, 0x4a, 0x1b, 0x2c, 0x3d, 0x4e, 0x5f, 0x60, 0x71, 0x82, 0x93, 0xa4]

/-- A second identifier. -/
def otherID : ObjectID :=
  copy12 [0x65, 0x4a, 0x1b, 0x2c, 0x3d, 0x4e, 0x5f, 0x60, 0x71, 0x82, 0x93, 0xa5]

/-- The owner of the scenario of the specification. -/
def janeDoe : NewOwner := ⟨"Jane Doe", "jane@example.com", "555-0100"⟩

/-- A second owner. -/
def johnRoe : NewOwner := ⟨"John Roe", "john@example.com", "555-0101"⟩

/-- The listing of the scenario of the specification. -/
def apartment : NewListing := ⟨"654a1b2c3d4e5f60718293a4", "2BR apartment", "Downtown"⟩

/-- An insert the store accepts, with identifier `sampleID`. -/
def acceptSample : InsertEnv := ⟨sampleID, none⟩

/-- An insert the store accepts, with identifier `otherID`. -/
def acceptOther : InsertEnv := ⟨otherID, none⟩

/-- An insert the store rejects. -/
def rejectSample : InsertEnv := ⟨sampleID, some (Error.store "write timeout")⟩

/-- A store whose owner collection holds one document, stored under the zero
identifier. -/
def zeroOwnerDB : DB :=
  setCol emptyDB "owner"
    [[("_id", Value.objectID NilObjectID), ("name", Value.string "Zed"),
      ("email", Value.string "zed@example.com"), ("phone", Value.string "555-0000")]]

/-- A store holding the two sample owners and one listing. -/
def sampleDB : DB :=
  setCol
    (setCol emptyDB "owner"
      [("_id", Value.objectID sampleID) :: marshalNewOwner janeDoe,
       ("_id", Value.objectID otherID) :: marshalNewOwner johnRoe])
    "listing" [("_id", Value.objectID sampleID) :: marshalNewListing apartment]

/-- A store whose listing collection holds two documents. -/
def twoListingsDB : DB :=
  setCol emptyDB "listing"
    [("_id", Value.objectID sampleID) :: marshalNewListing apartment,
     ("_id", Value.objectID otherID) :: marshalNewListing ⟨"o", "Studio", "Harbour"⟩]

/-- A cursor that delivers one document and then loses the connection. -/
def cursorBreaks : ScanFault := ScanFault.duringIteration 1 (Error.store "connection reset")

/-! ## Identifier strings: encoding and decoding -/

theorem fromHexChar_hexDigit (n : Fin 16) : fromHexChar (hexDigit n) = some n := by
  revert n; decide

theorem hexDigit_toNat_lt (n : Fin 16) : (hexDigit n).toNat < 128 := by
  revert n; decide

theorem hexDigit_mem_table (n : Fin 16) : hexDigit n ∈ "0123456789abcdef".data := by
  revert n; decide

theorem joinNibbles_split (b : Byte) :
    joinNibbles ⟨b.val / 16, by omega⟩ ⟨b.val % 16, by omega⟩ = b := by
  apply Fin.ext
  simp only [joinNibbles]
  omega

theorem hexDecode_hexEncode (bs : List Byte) : hexDecode (hexEncode bs) = some bs := by
  induction bs with
  | nil => rfl
  | cons b rest ih =>
    show hexDecode (hexDigit ⟨b.val / 16, by omega⟩ :: hexDigit ⟨b.val % 16, by omega⟩ ::
      hexEncode rest) = some (b :: rest)
    simp only [hexDecode, fromHexChar_hexDigit, ih, joinNibbles_split]

theorem hexEncode_length (bs : List Byte) : (hexEncode bs).length = 2 * bs.length := by
  induction bs with
  | nil => rfl
  | cons b rest ih => simp [hexEncode, encodeByte, ih]; omega

theorem hexEncode_mem_table (bs : List Byte) :
    ∀ c ∈ hexEncode bs, c ∈ "0123456789abcdef".data := by
  induction bs with
  | nil => intro c hc; simp [hexEncode] at hc
  | cons b rest ih =>
    intro c hc
    simp only [hexEncode, encodeByte, List.cons_append, List.nil_append, List.mem_cons] at hc
    rcases hc with h | h | h
    · rw [h]; exact hexDigit_mem_table _
    · rw [h]; exact hexDigit_mem_table _
    · exact ih c h

theorem hexEncode_ascii (bs : List Byte) : ∀ c ∈ hexEncode bs, c.toNat < 128 := by
  induction bs with
  | nil => intro c hc; simp [hexEncode] at hc
  | cons b rest ih =>
    intro c hc
    simp only [hexEncode, encodeByte, List.cons_append, List.nil_append, List.mem_cons] at hc
    rcases hc with h | h | h
    · rw [h]; exact hexDigit_toNat_lt _
    · rw [h]; exact hexDigit_toNat_lt _
    · exact ih c h

theorem utf8Size_of_ascii (c : Char) (h : c.toNat < 128) : c.utf8Size = 1 := by
  have h0 : c.toNat = c.val.toNat := rfl
  have h1 : c.val ≤ UInt32.ofNatCore 127 (by decide) := by
    show c.val.toNat ≤ 127
    omega
  unfold Char.utf8Size
  exact if_pos h1

theorem utf8ByteSize_go_ascii (l : List Char) (h : ∀ c ∈ l, c.toNat < 128) :
    String.utf8ByteSize.go l = l.length := by
  induction l with
  | nil => rfl
  | cons c rest ih =>
    have hc := utf8Size_of_ascii c (h c (List.mem_cons_self _ _))
    have hr := ih (fun x hx => h x (List.mem_cons_of_mem _ hx))
    show String.utf8ByteSize.go rest + c.utf8Size = rest.length + 1
    rw [hc, hr]

theorem utf8ByteSize_ascii (l : List Char) (h : ∀ c ∈ l, c.toNat < 128) :
    (String.mk l).utf8ByteSize = l.length := by
  show String.utf8ByteSize.go l = l.length
  exact utf8ByteSize_go_ascii l h

theorem copy12_bytes (id : ObjectID) : copy12 id.bytes = id := by
  cases id with
  | mk bytes size =>
    simp only [copy12, ObjectID.mk.injEq]
    rw [List.take_append_of_le_length (by omega)]
    exact List.take_of_length_le (by omega)

/-- The hex string of an identifier converts back to the identifier. -/
theorem ObjectIDFromHex_Hex (id : ObjectID) : ObjectIDFromHex id.Hex = (id, none) := by
  have hsize : id.Hex.utf8ByteSize = 24 := by
    rw [ObjectID.Hex, utf8ByteSize_ascii _ (hexEncode_ascii _), hexEncode_length, id.size]
  simp only [ObjectIDFromHex, hsize, ne_eq, not_true_eq_false, if_false]
  simp only [ObjectID.Hex, hexDecode_hexEncode, copy12_bytes]

/-- A failed conversion yields the zero identifier. -/
theorem ObjectIDFromHex_fail (s : String) (h : (ObjectIDFromHex s).2 ≠ none) :
    (ObjectIDFromHex s).1 = NilObjectID := by
  unfold ObjectIDFromHex at h ⊢
  by_cases hs : s.utf8ByteSize ≠ 24
  · rw [if_pos hs]
  · rw [if_neg hs] at h ⊢
    cases hd : hexDecode s.data with
    | none => rfl
    | some b => rw [hd] at h; exact absurd rfl h

theorem ObjectIDFromHex_zero :
    ObjectIDFromHex "000000000000000000000000" = (NilObjectID, none) := by decide

theorem fromHexChar_ascii (c : Char) (h : (fromHexChar c).isSome = true) : c.toNat < 128 := by
  unfold fromHexChar at h
  split_ifs at h with h0 ha hA
  · omega
  · omega
  · omega
  · simp at h

theorem two_step_induction {P : List Char → Prop} (h0 : P []) (h1 : ∀ x, P [x])
    (h2 : ∀ x y rest, P rest → P (x :: y :: rest)) : ∀ l, P l
  | [] => h0
  | [x] => h1 x
  | x :: y :: rest => h2 x y rest (two_step_induction h0 h1 h2 rest)

theorem hexDecode_some_all (l : List Char) :
    ∀ b, hexDecode l = some b → ∀ c ∈ l, (fromHexChar c).isSome = true := by
  induction l using two_step_induction with
  | h0 => intro b _ c hc; simp at hc
  | h1 x => intro b h; simp [hexDecode] at h
  | h2 x y rest ih =>
    intro b h c hc
    unfold hexDecode at h
    cases hx : fromHexChar x with
    | none => simp [hx] at h
    | some hi =>
      cases hy : fromHexChar y with
      | none => simp [hx, hy] at h
      | some lo =>
        cases hr : hexDecode rest with
        | none => simp [hx, hy, hr] at h
        | some bs =>
          simp only [List.mem_cons] at hc
          rcases hc with hc | hc | hc
          · rw [hc, hx]; rfl
          · rw [hc, hy]; rfl
          · exact ih bs hr c hc

theorem hexDecode_all_some (l : List Char) :
    (∀ c ∈ l, (fromHexChar c).isSome = true) → l.length % 2 = 0 →
      ∃ b, hexDecode l = some b := by
  induction l using two_step_induction with
  | h0 => intro _ _; exact ⟨[], rfl⟩
  | h1 x => intro _ h; simp at h
  | h2 x y rest ih =>
    intro hall hlen
    have hx := hall x (by simp)
    have hy := hall y (by simp)
    obtain ⟨bs, hbs⟩ := ih (fun c hc => hall c (by simp [hc]))
      (by simp only [List.length_cons] at hlen; omega)
    obtain ⟨hi, hhi⟩ := Option.isSome_iff_exists.1 hx
    obtain ⟨lo, hlo⟩ := Option.isSome_iff_exists.1 hy
    exact ⟨joinNibbles hi lo :: bs, by simp only [hexDecode, hhi, hlo, hbs]⟩

/-- The identifier strings the conversion accepts are exactly the strings of
24 hex digits (either case). -/
theorem ObjectIDFromHex_ok_iff (s : String) :
    (ObjectIDFromHex s).2 = none ↔
      s.length = 24 ∧ ∀ c ∈ s.data, (fromHexChar c).isSome = true := by
  obtain ⟨l⟩ := s
  constructor
  · intro h
    unfold ObjectIDFromHex at h
    by_cases hs : (String.mk l).utf8ByteSize ≠ 24
    · rw [if_pos hs] at h; simp at h
    · rw [if_neg hs] at h
      cases hd : hexDecode l with
      | none => simp only [hd] at h; simp at h
      | some b =>
        have hall := hexDecode_some_all l b hd
        have hascii : ∀ c ∈ l, c.toNat < 128 := fun c hc => fromHexChar_ascii c (hall c hc)
        rw [utf8ByteSize_ascii l hascii] at hs
        exact ⟨by simpa [String.length] using hs, hall⟩
  · rintro ⟨hlen, hall⟩
    have hlen2 : l.length = 24 := hlen
    have hascii : ∀ c ∈ l, c.toNat < 128 := fun c hc => fromHexChar_ascii c (hall c hc)
    obtain ⟨b, hb⟩ := hexDecode_all_some l hall (by rw [hlen2])
    unfold ObjectIDFromHex
    rw [if_neg (by rw [utf8ByteSize_ascii l hascii, hlen2]; simp)]
    simp only [hb]

/-! ## The store: basic facts -/

theorem colHelper_setCol (db : DB) (n : String) (c : Collection) :
    colHelper (setCol db n c) n = c := by
  simp [colHelper, setCol]

theorem colHelper_setCol_ne (db : DB) (n m : String) (c : Collection) (h : m ≠ n) :
    colHelper (setCol db n c) m = colHelper db m := by
  simp [colHelper, setCol, h]

theorem InsertOne_ok_iff (c : Collection) (doc : Document) (env : InsertEnv) (oid : ObjectID) :
    (InsertOne c doc env).2 = Except.ok oid ↔
      env.fault = none ∧ c.any (hasID env.generated) = false ∧ oid = env.generated := by
  unfold InsertOne
  cases hf : env.fault with
  | some e => simp
  | none =>
    by_cases hd : c.any (hasID env.generated) = true
    · simp [hd]
    · simp only [hd]
      simp only [Bool.not_eq_true] at hd
      simp only [Bool.false_eq_true, if_false, Except.ok.injEq, true_and]
      exact eq_comm

theorem InsertOne_ok_collection (c : Collection) (doc : Document) (env : InsertEnv)
    (oid : ObjectID) (h : (InsertOne c doc env).2 = Except.ok oid) :
    (InsertOne c doc env).1 = c ++ [("_id", Value.objectID oid) :: doc] := by
  obtain ⟨hf, hd, ho⟩ := (InsertOne_ok_iff c doc env oid).1 h
  unfold InsertOne
  simp [hf, hd, ho]

theorem InsertOne_error_collection (c : Collection) (doc : Document) (env : InsertEnv)
    (e : Error) (h : (InsertOne c doc env).2 = Except.error e) :
    (InsertOne c doc env).1 = c := by
  unfold InsertOne at h ⊢
  cases hf : env.fault with
  | some e1 => rfl
  | none =>
    by_cases hd : c.any (hasID env.generated) = true
    · simp only [hd, if_true]
    · rw [hf] at h
      simp only [hd] at h
      exact absurd h (by simp)

theorem CreateOwner_ok (db : DB) (input : NewOwner) (env : InsertEnv) (oid : ObjectID)
    (h : (InsertOne (colHelper db "owner") (marshalNewOwner input) env).2 = Except.ok oid) :
    CreateOwner db input env =
      (setCol db "owner" (colHelper db "owner" ++
          [("_id", Value.objectID oid) :: marshalNewOwner input]),
        (some ⟨oid.Hex, input.Name, input.Email, input.Phone⟩, none)) := by
  have hc := InsertOne_ok_collection _ _ _ _ h
  unfold CreateOwner
  dsimp only
  split <;> rename_i heq <;> rw [heq] at h hc <;> simp only at h hc
  · exact absurd h (by simp)
  · rw [hc, Except.ok.inj h]

theorem CreateOwner_error (db : DB) (input : NewOwner) (env : InsertEnv) (e : Error)
    (h : (InsertOne (colHelper db "owner") (marshalNewOwner input) env).2 = Except.error e) :
    CreateOwner db input env = (setCol db "owner" (colHelper db "owner"), (none, some e)) := by
  have hc := InsertOne_error_collection _ _ _ _ h
  unfold CreateOwner
  dsimp only
  split <;> rename_i heq <;> rw [heq] at h hc <;> simp only at h hc
  · rw [hc, Except.error.inj h]
  · exact absurd h (by simp)

theorem CreateListing_ok (db : DB) (input : NewListing) (env : InsertEnv) (now : Time)
    (oid : ObjectID)
    (h : (InsertOne (colHelper db "listing") (marshalNewListing input) env).2 = Except.ok oid) :
    CreateListing db input env now =
      (setCol db "listing" (colHelper db "listing" ++
          [("_id", Value.objectID oid) :: marshalNewListing input]),
        (some ⟨oid.Hex, input.OwnerID, input.Description, input.Location, now,
          StatusNotStarted⟩, none)) := by
  have hc := InsertOne_ok_collection _ _ _ _ h
  unfold CreateListing
  dsimp only
  split <;> rename_i heq <;> rw [heq] at h hc <;> simp only at h hc
  · exact absurd h (by simp)
  · rw [hc, Except.ok.inj h]

theorem CreateListing_error (db : DB) (input : NewListing) (env : InsertEnv) (now : Time)
    (e : Error)
    (h : (InsertOne (colHelper db "listing") (marshalNewListing input) env).2
      = Except.error e) :
    CreateListing db input env now =
      (setCol db "listing" (colHelper db "listing"), (none, some e)) := by
  have hc := InsertOne_error_collection _ _ _ _ h
  unfold CreateListing
  dsimp only
  split <;> rename_i heq <;> rw [heq] at h hc <;> simp only at h hc
  · rw [hc, Except.error.inj h]
  · exact absurd h (by simp)

/-! ## Decoding: the shape of its errors -/

theorem decodeString_error (key : String) (v : Value) (e : Error)
    (h : decodeString key v = Except.error e) : e = Error.decode key := by
  cases v <;> simp [decodeString] at h <;> exact h.symm

theorem decodeTime_error (key : String) (v : Value) (e : Error)
    (h : decodeTime key v = Except.error e) : e = Error.decode key := by
  cases v <;> simp [decodeTime] at h <;> exact h.symm

theorem map_error {α β : Type} (f : α → β) (x : Except Error α) (e : Error)
    (h : x.map f = Except.error e) : x = Except.error e := by
  cases x with
  | error e1 => simpa [Except.map] using h
  | ok a => simp [Except.map] at h

theorem decodeOwnerElem_error (o : Owner) (key : String) (v : Value) (e : Error)
    (h : decodeOwnerElem o key v = Except.error e) : e = Error.decode key := by
  unfold decodeOwnerElem at h
  split_ifs at h
  all_goals first
    | exact decodeString_error _ _ _ (map_error _ _ _ h)

theorem decodeListingElem_error (l : Listing) (key : String) (v : Value) (e : Error)
    (h : decodeListingElem l key v = Except.error e) : e = Error.decode key := by
  unfold decodeListingElem at h
  split_ifs at h
  all_goals first
    | exact decodeString_error _ _ _ (map_error _ _ _ h)
    | exact decodeTime_error _ _ _ (map_error _ _ _ h)

theorem decodeOwnerInto_error (d : Document) (o : Owner) (e : Error)
    (h : (decodeOwnerInto d o).2 = some e) : ∃ key, e = Error.decode key := by
  induction d generalizing o with
  | nil => simp [decodeOwnerInto] at h
  | cons kv rest ih =>
    obtain ⟨key, v⟩ := kv
    unfold decodeOwnerInto at h
    cases hd : decodeOwnerElem o key v with
    | ok o1 => rw [hd] at h; exact ih o1 h
    | error e1 =>
      rw [hd] at h
      simp only [Option.some.injEq] at h
      exact ⟨key, h ▸ decodeOwnerElem_error o key v e1 hd⟩

theorem decodeListingInto_error (d : Document) (l : Listing) (e : Error)
    (h : (decodeListingInto d l).2 = some e) : ∃ key, e = Error.decode key := by
  induction d generalizing l with
  | nil => simp [decodeListingInto] at h
  | cons kv rest ih =>
    obtain ⟨key, v⟩ := kv
    unfold decodeListingInto at h
    cases hd : decodeListingElem l key v with
    | ok l1 => rw [hd] at h; exact ih l1 h
    | error e1 =>
      rw [hd] at h
      simp only [Option.some.injEq] at h
      exact ⟨key, h ▸ decodeListingElem_error l key v e1 hd⟩

theorem ObjectIDFromHex_error_cases (s : String) :
    (ObjectIDFromHex s).2 = none ∨ (ObjectIDFromHex s).2 = some Error.ErrInvalidHex ∨
      (ObjectIDFromHex s).2 = some Error.InvalidByteError := by
  unfold ObjectIDFromHex
  by_cases hs : s.utf8ByteSize ≠ 24
  · rw [if_pos hs]; exact Or.inr (Or.inl rfl)
  · rw [if_neg hs]
    cases hexDecode s.data with
    | none => exact Or.inr (Or.inr rfl)
    | some b => exact Or.inl rfl

theorem FindOne_none_cases (c : Collection) (id : ObjectID) :
    (FindOne c id none = SingleResult.err Error.ErrNoDocuments ∧ c.find? (hasID id) = none) ∨
      ∃ d, FindOne c id none = SingleResult.doc d ∧ c.find? (hasID id) = some d := by
  unfold FindOne
  cases hf : c.find? (hasID id) with
  | none => exact Or.inl ⟨rfl, rfl⟩
  | some d => exact Or.inr ⟨d, rfl, rfl⟩

theorem GetOwner_error_cases (db : DB) (ID : String) :
    (GetOwner db ID none).2 = none ∨ (GetOwner db ID none).2 = some Error.ErrNoDocuments ∨
      ∃ key, (GetOwner db ID none).2 = some (Error.decode key) := by
  unfold GetOwner
  dsimp only
  rcases FindOne_none_cases (colHelper db "owner") (ObjectIDFromHex ID).1 with ⟨h, _⟩ | ⟨d, h, _⟩
  · rw [h]; exact Or.inr (Or.inl rfl)
  · rw [h]
    simp only [SingleResult.DecodeOwner]
    cases he : (decodeOwner d).2 with
    | none => exact Or.inl rfl
    | some e =>
      obtain ⟨key, hk⟩ := decodeOwnerInto_error d _ e he
      exact Or.inr (Or.inr ⟨key, by rw [hk]⟩)

theorem GetListing_error_cases (db : DB) (ID : String) :
    (GetListing db ID none).2 = none ∨ (GetListing db ID none).2 = some Error.ErrNoDocuments ∨
      ∃ key, (GetListing db ID none).2 = some (Error.decode key) := by
  unfold GetListing
  dsimp only
  rcases FindOne_none_cases (colHelper db "listing") (ObjectIDFromHex ID).1 with
    ⟨h, _⟩ | ⟨d, h, _⟩
  · rw [h]; exact Or.inr (Or.inl rfl)
  · rw [h]
    simp only [SingleResult.DecodeListing]
    cases he : (decodeListing d).2 with
    | none => exact Or.inl rfl
    | some e =>
      obtain ⟨key, hk⟩ := decodeListingInto_error d _ e he
      exact Or.inr (Or.inr ⟨key, by rw [hk]⟩)

theorem conversion_error_ne (s : String) (x : Option Error)
    (hs : (ObjectIDFromHex s).2 ≠ none)
    (hx : x = none ∨ x = some Error.ErrNoDocuments ∨ ∃ key, x = some (Error.decode key)) :
    x ≠ (ObjectIDFromHex s).2 := by
  rcases ObjectIDFromHex_error_cases s with h | h | h
  · exact absurd h hs
  · rw [h]; rcases hx with hx | hx | ⟨key, hx⟩ <;> rw [hx] <;> simp
  · rw [h]; rcases hx with hx | hx | ⟨key, hx⟩ <;> rw [hx] <;> simp

/-! ## The creating operations -/

/-- C5: when the insert of a `NewOwner` succeeds with the store-assigned
identifier `oid`, `CreateOwner` returns no error and the Owner carrying the
name, email and phone of the input; its ID is the lowercase hex rendering of
the twelve bytes of `oid`: a non-empty string of exactly 24 characters, each
one of `0123456789abcdef`. -/
theorem CreateOwner_success (db : DB) (input : NewOwner) (env : InsertEnv) (oid : ObjectID)
    (h : (InsertOne (colHelper db "owner") (marshalNewOwner input) env).2 = Except.ok oid) :
    (CreateOwner db input env).2
        = (some ⟨oid.Hex, input.Name, input.Email, input.Phone⟩, none) ∧
      oid.bytes.length = 12 ∧ oid.Hex = String.mk (hexEncode oid.bytes) ∧
      oid.Hex ≠ "" ∧ oid.Hex.length = 24 ∧
      ∀ c ∈ oid.Hex.data, c ∈ "0123456789abcdef".data := by
  have hlen : oid.Hex.length = 24 := by
    show (hexEncode oid.bytes).length = 24
    rw [hexEncode_length, oid.size]
  refine ⟨by rw [CreateOwner_ok db input env oid h], oid.size, rfl, ?_, hlen, ?_⟩
  · intro h0
    rw [h0] at hlen
    exact absurd hlen (by decide)
  · exact hexEncode_mem_table oid.bytes

theorem CreateOwner_success_witness :
    (InsertOne (colHelper emptyDB "owner") (marshalNewOwner janeDoe) acceptSample).2
        = Except.ok sampleID ∧
      (CreateOwner emptyDB janeDoe acceptSample).2
        = (some ⟨sampleID.Hex, "Jane Doe", "jane@example.com", "555-0100"⟩, none) ∧
      sampleID.Hex = "654a1b2c3d4e5f60718293a4" :=
  ⟨rfl, (CreateOwner_success emptyDB janeDoe acceptSample sampleID rfl).1, by decide⟩

/-- C6: when the insert of a `NewListing` succeeds, `CreateListing` returns no
error and a Listing whose status is `StatusNotStarted`, whatever the input
holds, and whose owner identifier, description and location are those of the
input. -/
theorem CreateListing_success (db : DB) (input : NewListing) (env : InsertEnv) (now : Time)
    (oid : ObjectID)
    (h : (InsertOne (colHelper db "listing") (marshalNewListing input) env).2
      = Except.ok oid) :
    ∃ l : Listing, (CreateListing db input env now).2 = (some l, none) ∧
      l.Status = StatusNotStarted ∧ l.OwnerID = input.OwnerID ∧
      l.Description = input.Description ∧ l.Location = input.Location ∧
      l.ID = oid.Hex ∧ l.CreatedAt = now := by
  refine ⟨⟨oid.Hex, input.OwnerID, input.Description, input.Location, now, StatusNotStarted⟩,
    ?_, rfl, rfl, rfl, rfl, rfl, rfl⟩
  rw [CreateListing_ok db input env now oid h]

theorem CreateListing_success_witness :
    (InsertOne (colHelper emptyDB "listing") (marshalNewListing apartment) acceptSample).2
        = Except.ok sampleID ∧
      ∃ l : Listing, (CreateListing emptyDB apartment acceptSample ⟨1700000000⟩).2
          = (some l, none) ∧
        l.Status = StatusNotStarted ∧ l.OwnerID = "654a1b2c3d4e5f60718293a4" ∧
        l.Description = "2BR apartment" ∧ l.Location = "Downtown" ∧
        l.ID = sampleID.Hex ∧ l.CreatedAt = ⟨1700000000⟩ :=
  ⟨rfl, CreateListing_success emptyDB apartment acceptSample ⟨1700000000⟩ sampleID rfl⟩

/-- C9: when the insert fails with the error `e`, `CreateOwner` and
`CreateListing` each return exactly `e` and a nil result; each returns a
non-nil result if and only if the insert reported no error. -/
theorem Create_insert_failure (db : DB) (owner : NewOwner) (listing : NewListing)
    (env : InsertEnv) (now : Time) (e : Error) :
    ((InsertOne (colHelper db "owner") (marshalNewOwner owner) env).2 = Except.error e →
        (CreateOwner db owner env).2 = (none, some e)) ∧
      ((InsertOne (colHelper db "listing") (marshalNewListing listing) env).2
          = Except.error e →
        (CreateListing db listing env now).2 = (none, some e)) ∧
      ((CreateOwner db owner env).2.1 ≠ none ↔
        ∃ oid, (InsertOne (colHelper db "owner") (marshalNewOwner owner) env).2
          = Except.ok oid) ∧
      ((CreateListing db listing env now).2.1 ≠ none ↔
        ∃ oid, (InsertOne (colHelper db "listing") (marshalNewListing listing) env).2
          = Except.ok oid) := by
  refine ⟨fun h => by rw [CreateOwner_error db owner env e h],
    fun h => by rw [CreateListing_error db listing env now e h], ?_, ?_⟩
  · cases hr : (InsertOne (colHelper db "owner") (marshalNewOwner owner) env).2 with
    | error e1 => rw [CreateOwner_error db owner env e1 hr]; simp
    | ok oid => rw [CreateOwner_ok db owner env oid hr]; simp
  · cases hr : (InsertOne (colHelper db "listing") (marshalNewListing listing) env).2 with
    | error e1 => rw [CreateListing_error db listing env now e1 hr]; simp
    | ok oid => rw [CreateListing_ok db listing env now oid hr]; simp

theorem Create_insert_failure_witness :
    (InsertOne (colHelper sampleDB "owner") (marshalNewOwner janeDoe) rejectSample).2
        = Except.error (Error.store "write timeout") ∧
      (InsertOne (colHelper sampleDB "listing") (marshalNewListing apartment) rejectSample).2
        = Except.error (Error.store "write timeout") ∧
      (CreateOwner sampleDB janeDoe rejectSample).2
        = (none, some (Error.store "write timeout")) ∧
      (CreateListing sampleDB apartment rejectSample ⟨1700000000⟩).2
        = (none, some (Error.store "write timeout")) :=
  ⟨rfl, rfl,
    (Create_insert_failure sampleDB janeDoe apartment rejectSample ⟨1700000000⟩
      (Error.store "write timeout")).1 rfl,
    (Create_insert_failure sampleDB janeDoe apartment rejectSample ⟨1700000000⟩
      (Error.store "write timeout")).2.1 rfl⟩

/-! ## Lookups by identifier -/

theorem FindOne_no_match (c : Collection) (id : ObjectID)
    (h : ∀ d ∈ c, hasID id d = false) : FindOne c id none = SingleResult.err Error.ErrNoDocuments := by
  have hf : c.find? (hasID id) = none := by
    rw [List.find?_eq_none]
    intro d hd
    rw [h d hd]
    simp
  unfold FindOne
  simp only [hf]

theorem FindOne_match (c : Collection) (id : ObjectID) (d : Document)
    (h : c.find? (hasID id) = some d) : FindOne c id none = SingleResult.doc d := by
  unfold FindOne
  simp only [h]

/-- C10: when the conversion of the identifier string fails, `GetOwner` and
`GetListing` return exactly what the same lookup returns for the zero
identifier, twelve zero bytes, written `000000000000000000000000`: the outcome
of the exact-match query on the zero identifier, a matching document
included. The conversion error does not reach the caller. -/
theorem lookup_with_failed_conversion (db : DB) (ID : String) (fault : Option Error)
    (h : (ObjectIDFromHex ID).2 ≠ none) :
    GetOwner db ID fault = GetOwner db "000000000000000000000000" fault ∧
      GetListing db ID fault = GetListing db "000000000000000000000000" fault ∧
      ObjectIDFromHex "000000000000000000000000" = (NilObjectID, none) ∧
      NilObjectID.bytes = List.replicate 12 0 ∧
      GetOwner db "000000000000000000000000" fault
        = (FindOne (colHelper db "owner") NilObjectID fault).DecodeOwner ∧
      GetListing db "000000000000000000000000" fault
        = (FindOne (colHelper db "listing") NilObjectID fault).DecodeListing ∧
      (GetOwner db ID none).2 ≠ (ObjectIDFromHex ID).2 ∧
      (GetListing db ID none).2 ≠ (ObjectIDFromHex ID).2 := by
  have hnil := ObjectIDFromHex_fail ID h
  refine ⟨?_, ?_, ObjectIDFromHex_zero, rfl, ?_, ?_,
    conversion_error_ne ID _ h (GetOwner_error_cases db ID),
    conversion_error_ne ID _ h (GetListing_error_cases db ID)⟩
  · simp only [GetOwner, hnil, ObjectIDFromHex_zero]
  · simp only [GetListing, hnil, ObjectIDFromHex_zero]
  · simp only [GetOwner, ObjectIDFromHex_zero]
  · simp only [GetListing, ObjectIDFromHex_zero]

theorem lookup_with_failed_conversion_witness :
    (ObjectIDFromHex "not-an-id").2 ≠ none ∧
      GetOwner zeroOwnerDB "not-an-id" none
        = GetOwner zeroOwnerDB "000000000000000000000000" none ∧
      GetListing zeroOwnerDB "not-an-id" none
        = GetListing zeroOwnerDB "000000000000000000000000" none :=
  ⟨by decide,
    (lookup_with_failed_conversion zeroOwnerDB "not-an-id" none (by decide)).1,
    (lookup_with_failed_conversion zeroOwnerDB "not-an-id" none (by decide)).2.1⟩

/-- C1, as the code has it: for an identifier string that is not a valid store
identifier, `GetOwner` issues the exact-match lookup with the zero identifier
and returns its outcome. Without a store failure that is no Owner and the
not-found error of the store when no owner document is stored under the zero
identifier, and the decoded document otherwise; no invalid-identifier error
is returned. -/
theorem GetOwner_invalid_identifier (db : DB) (ID : String) (fault : Option Error)
    (hinvalid : ¬ (ID.length = 24 ∧ ∀ c ∈ ID.data, (fromHexChar c).isSome = true)) :
    (ObjectIDFromHex ID).2 ≠ none ∧
      GetOwner db ID fault = (FindOne (colHelper db "owner") NilObjectID fault).DecodeOwner ∧
      ((∀ d ∈ colHelper db "owner", hasID NilObjectID d = false) →
        GetOwner db ID none = (none, some Error.ErrNoDocuments)) ∧
      (∀ d, (colHelper db "owner").find? (hasID NilObjectID) = some d →
        GetOwner db ID none = (some (decodeOwner d).1, (decodeOwner d).2)) ∧
      (GetOwner db ID none).2 ≠ some Error.ErrInvalidHex ∧
      (GetOwner db ID none).2 ≠ some Error.InvalidByteError := by
  have h : (ObjectIDFromHex ID).2 ≠ none := fun hn =>
    hinvalid ((ObjectIDFromHex_ok_iff ID).1 hn)
  have hnil := ObjectIDFromHex_fail ID h
  refine ⟨h, ?_, ?_, ?_, ?_, ?_⟩
  · simp only [GetOwner, hnil]
  · intro hno
    simp only [GetOwner, hnil, FindOne_no_match _ _ hno, SingleResult.DecodeOwner]
  · intro d hd
    simp only [GetOwner, hnil, FindOne_match _ _ d hd, SingleResult.DecodeOwner]
  · rcases GetOwner_error_cases db ID with hx | hx | ⟨key, hx⟩ <;> rw [hx] <;> simp
  · rcases GetOwner_error_cases db ID with hx | hx | ⟨key, hx⟩ <;> rw [hx] <;> simp

theorem GetOwner_invalid_identifier_witness :
    ¬ ("654a1b2c3d4e5f60718293zz".length = 24 ∧
        ∀ c ∈ "654a1b2c3d4e5f60718293zz".data, (fromHexChar c).isSome = true) ∧
      (∀ d ∈ colHelper sampleDB "owner", hasID NilObjectID d = false) ∧
      GetOwner sampleDB "654a1b2c3d4e5f60718293zz" none = (none, some Error.ErrNoDocuments) :=
  ⟨by decide, by decide,
    (GetOwner_invalid_identifier sampleDB "654a1b2c3d4e5f60718293zz" none (by decide)).2.2.1
      (by decide)⟩

/-- C1 as stated fails: for the string `not-an-id`, which is no valid store
identifier, and a store holding an owner document under the zero identifier,
`GetOwner` returns that Owner and no error; on the empty store it returns the
not-found error of the lookup it issued. -/
theorem GetOwner_invalid_identifier_counterexample :
    "not-an-id".length ≠ 24 ∧
      ObjectIDFromHex "not-an-id" = (NilObjectID, some Error.ErrInvalidHex) ∧
      GetOwner zeroOwnerDB "not-an-id" none
        = (some ⟨"000000000000000000000000", "Zed", "zed@example.com", "555-0000"⟩, none) ∧
      GetOwner emptyDB "not-an-id" none = (none, some Error.ErrNoDocuments) := by
  decide

/-- C7: for a valid identifier string and a listing collection without a
document under that identifier, `GetListing` returns no Listing and the
not-found error of the store (and a non-nil error also when the store fails);
for every input, store state and store failure `GetListing` does not return a
nil Listing together with a nil error. -/
theorem GetListing_not_found (db : DB) (ID : String) (fault : Option Error) :
    ((ObjectIDFromHex ID).2 = none →
        (∀ d ∈ colHelper db "listing", hasID (ObjectIDFromHex ID).1 d = false) →
        GetListing db ID none = (none, some Error.ErrNoDocuments) ∧
          (GetListing db ID fault).1 = none ∧ (GetListing db ID fault).2 ≠ none) ∧
      GetListing db ID fault ≠ (none, none) ∧
      ((GetListing db ID fault).2 = none → (GetListing db ID fault).1 ≠ none) := by
  have key : (GetListing db ID fault).2 = none → (GetListing db ID fault).1 ≠ none := by
    unfold GetListing FindOne
    dsimp only
    cases fault with
    | some e => simp [SingleResult.DecodeListing]
    | none =>
      cases (colHelper db "listing").find? (hasID (ObjectIDFromHex ID).1) with
      | none => simp [SingleResult.DecodeListing]
      | some d => simp [SingleResult.DecodeListing]
  refine ⟨?_, ?_, key⟩
  · intro _ hno
    have h0 := FindOne_no_match _ _ hno
    refine ⟨by simp only [GetListing, h0, SingleResult.DecodeListing], ?_⟩
    cases fault with
    | none => simp only [GetListing, h0, SingleResult.DecodeListing]; simp
    | some e => simp [GetListing, FindOne, SingleResult.DecodeListing]
  · intro hnn
    have h2 : (GetListing db ID fault).2 = none := by rw [hnn]
    exact key h2 (by rw [hnn])

theorem GetListing_not_found_witness :
    (ObjectIDFromHex "654a1b2c3d4e5f60718293a5").2 = none ∧
      (∀ d ∈ colHelper sampleDB "listing",
        hasID (ObjectIDFromHex "654a1b2c3d4e5f60718293a5").1 d = false) ∧
      GetListing sampleDB "654a1b2c3d4e5f60718293a5" none
        = (none, some Error.ErrNoDocuments) :=
  ⟨by decide, by decide,
    ((GetListing_not_found sampleDB "654a1b2c3d4e5f60718293a5" none).1
      (by decide) (by decide)).1⟩

/-! ## Reading back what was created -/

theorem hasID_inserted (oid : ObjectID) (doc : Document) :
    hasID oid (("_id", Value.objectID oid) :: doc) = true := by
  simp [hasID, List.lookup]

theorem FindOne_inserted (c : Collection) (oid : ObjectID) (doc : Document)
    (hfresh : c.any (hasID oid) = false) :
    FindOne (c ++ [("_id", Value.objectID oid) :: doc]) oid none
      = SingleResult.doc (("_id", Value.objectID oid) :: doc) := by
  apply FindOne_match
  have hnone : c.find? (hasID oid) = none := by
    rw [List.find?_eq_none]
    rw [List.any_eq_false] at hfresh
    exact hfresh
  rw [List.find?_append, hnone, List.find?_cons_of_pos _ (hasID_inserted oid doc)]
  rfl

theorem decodeOwner_inserted (oid : ObjectID) (input : NewOwner) :
    decodeOwner (("_id", Value.objectID oid) :: marshalNewOwner input)
      = (⟨oid.Hex, input.Name, input.Email, input.Phone⟩, none) := rfl

theorem decodeListing_inserted (oid : ObjectID) (input : NewListing) :
    decodeListing (("_id", Value.objectID oid) :: marshalNewListing input)
      = (⟨oid.Hex, input.OwnerID, input.Description, input.Location, Time.zero, ""⟩,
          none) := rfl

theorem CreateOwner_returned (db : DB) (input : NewOwner) (env : InsertEnv) (o : Owner)
    (h : (CreateOwner db input env).2 = (some o, none)) :
    (InsertOne (colHelper db "owner") (marshalNewOwner input) env).2
        = Except.ok env.generated ∧
      o = ⟨env.generated.Hex, input.Name, input.Email, input.Phone⟩ := by
  cases hr : (InsertOne (colHelper db "owner") (marshalNewOwner input) env).2 with
  | error e => rw [CreateOwner_error db input env e hr] at h; simp at h
  | ok oid =>
    have hg : oid = env.generated := ((InsertOne_ok_iff _ _ _ _).1 hr).2.2
    rw [CreateOwner_ok db input env oid hr] at h
    simp only [Prod.mk.injEq, Option.some.injEq, and_true] at h
    subst hg
    exact ⟨rfl, h.symm⟩

theorem CreateListing_returned (db : DB) (input : NewListing) (env : InsertEnv) (now : Time)
    (l : Listing) (h : (CreateListing db input env now).2 = (some l, none)) :
    (InsertOne (colHelper db "listing") (marshalNewListing input) env).2
        = Except.ok env.generated ∧
      l = ⟨env.generated.Hex, input.OwnerID, input.Description, input.Location, now,
        StatusNotStarted⟩ := by
  cases hr : (InsertOne (colHelper db "listing") (marshalNewListing input) env).2 with
  | error e => rw [CreateListing_error db input env now e hr] at h; simp at h
  | ok oid =>
    have hg : oid = env.generated := ((InsertOne_ok_iff _ _ _ _).1 hr).2.2
    rw [CreateListing_ok db input env now oid hr] at h
    simp only [Prod.mk.injEq, Option.some.injEq, and_true] at h
    subst hg
    exact ⟨rfl, h.symm⟩

/-- C4: when `CreateOwner` succeeds, a following `GetOwner` with the identifier
string it returned, on the store it left and without a store failure, returns
no error and an Owner equal to the one `CreateOwner` returned. -/
theorem GetOwner_after_CreateOwner (db : DB) (input : NewOwner) (env : InsertEnv) (o : Owner)
    (h : (CreateOwner db input env).2 = (some o, none)) :
    GetOwner (CreateOwner db input env).1 o.ID none = (some o, none) ∧
      o.Name = input.Name ∧ o.Email = input.Email ∧ o.Phone = input.Phone ∧
      ObjectIDFromHex o.ID = (env.generated, none) := by
  obtain ⟨hins, ho⟩ := CreateOwner_returned db input env o h
  have hfresh := ((InsertOne_ok_iff _ _ _ _).1 hins).2.1
  subst ho
  refine ⟨?_, rfl, rfl, rfl, ObjectIDFromHex_Hex _⟩
  rw [CreateOwner_ok db input env _ hins]
  simp only [GetOwner, colHelper_setCol, ObjectIDFromHex_Hex, FindOne_inserted _ _ _ hfresh,
    SingleResult.DecodeOwner, decodeOwner_inserted]

theorem GetOwner_after_CreateOwner_witness :
    (CreateOwner sampleDB ⟨"Ann Poe", "ann@example.com", "555-0102"⟩
        ⟨copy12 [7, 7, 7], none⟩).2
      = (some ⟨"070707000000000000000000", "Ann Poe", "ann@example.com", "555-0102"⟩, none) ∧
    GetOwner (CreateOwner sampleDB ⟨"Ann Poe", "ann@example.com", "555-0102"⟩
        ⟨copy12 [7, 7, 7], none⟩).1 "070707000000000000000000" none
      = (some ⟨"070707000000000000000000", "Ann Poe", "ann@example.com", "555-0102"⟩, none) :=
  ⟨by decide,
    (GetOwner_after_CreateOwner sampleDB ⟨"Ann Poe", "ann@example.com", "555-0102"⟩
      ⟨copy12 [7, 7, 7], none⟩
      ⟨"070707000000000000000000", "Ann Poe", "ann@example.com", "555-0102"⟩
      (by decide)).1⟩

/-- C2, as the code has it: when `CreateListing` succeeds, a following
`GetListing` with the identifier it returned, on the store it left and without
a store failure, returns no error and a Listing with the same identifier, owner
identifier, description and location; its status is the empty zero value and
its creation timestamp the zero time, since the insert stores neither, while
`CreateListing` returned the not-started status and the time of the call. -/
theorem GetListing_after_CreateListing (db : DB) (input : NewListing) (env : InsertEnv)
    (now : Time) (l : Listing) (h : (CreateListing db input env now).2 = (some l, none)) :
    GetListing (CreateListing db input env now).1 l.ID none
        = (some { l with CreatedAt := Time.zero, Status := "" }, none) ∧
      l.Status = StatusNotStarted ∧ l.CreatedAt = now ∧ StatusNotStarted ≠ "" := by
  obtain ⟨hins, hl⟩ := CreateListing_returned db input env now l h
  have hfresh := ((InsertOne_ok_iff _ _ _ _).1 hins).2.1
  subst hl
  refine ⟨?_, rfl, rfl, by decide⟩
  rw [CreateListing_ok db input env now _ hins]
  simp only [GetListing, colHelper_setCol, ObjectIDFromHex_Hex, FindOne_inserted _ _ _ hfresh,
    SingleResult.DecodeListing, decodeListing_inserted]

theorem GetListing_after_CreateListing_witness :
    (CreateListing sampleDB apartment acceptOther ⟨1700000000⟩).2
      = (some ⟨"654a1b2c3d4e5f60718293a5", "654a1b2c3d4e5f60718293a4", "2BR apartment",
          "Downtown", ⟨1700000000⟩, "NOT_STARTED"⟩, none) ∧
    GetListing (CreateListing sampleDB apartment acceptOther ⟨1700000000⟩).1
        "654a1b2c3d4e5f60718293a5" none
      = (some ⟨"654a1b2c3d4e5f60718293a5", "654a1b2c3d4e5f60718293a4", "2BR apartment",
          "Downtown", Time.zero, ""⟩, none) :=
  ⟨by decide,
    (GetListing_after_CreateListing sampleDB apartment acceptOther ⟨1700000000⟩
      ⟨"654a1b2c3d4e5f60718293a5", "654a1b2c3d4e5f60718293a4", "2BR apartment",
        "Downtown", ⟨1700000000⟩, "NOT_STARTED"⟩ (by decide)).1⟩

/-- C2 as stated fails: on the empty store `CreateListing` returns the listing
of the scenario with status not-started and the creation time of the call; the
following `GetListing` with the returned identifier returns it with the empty
status and the zero time. -/
theorem GetListing_after_CreateListing_counterexample :
    (CreateListing emptyDB apartment acceptSample ⟨1700000000⟩).2
      = (some ⟨"654a1b2c3d4e5f60718293a4", "654a1b2c3d4e5f60718293a4", "2BR apartment",
          "Downtown", ⟨1700000000⟩, "NOT_STARTED"⟩, none) ∧
    GetListing (CreateListing emptyDB apartment acceptSample ⟨1700000000⟩).1
        "654a1b2c3d4e5f60718293a4" none
      = (some ⟨"654a1b2c3d4e5f60718293a4", "654a1b2c3d4e5f60718293a4", "2BR apartment",
          "Downtown", ⟨0⟩, ""⟩, none) ∧
    StatusNotStarted ≠ "" ∧ (⟨1700000000⟩ : Time) ≠ ⟨0⟩ := by
  decide

/-! ## Scans -/

theorem GetOwners_loop_no_error (docs : List Document) (acc : List Owner)
    (entries : List Owner) (err : Error) :
    GetOwners.loop docs acc none ≠ ScanOutcome.returned entries (some err) := by
  induction docs generalizing acc with
  | nil => simp [GetOwners.loop]
  | cons d rest ih =>
    unfold GetOwners.loop
    cases hd : decodeOwner d with
    | mk o e =>
      cases e with
      | some e1 => simp
      | none => exact ih _

theorem GetListings_loop_no_error (docs : List Document) (acc : List Listing)
    (entries : List Listing) (err : Error) :
    GetListings.loop docs acc none ≠ ScanOutcome.returned entries (some err) := by
  induction docs generalizing acc with
  | nil => simp [GetListings.loop]
  | cons d rest ih =>
    unfold GetListings.loop
    cases hd : decodeListing d with
    | mk l e =>
      cases e with
      | some e1 => simp
      | none => exact ih _

/-- A scan returns an error only when the query itself was rejected; a failure
while the cursor is read is returned as the documents read so far and no
error. -/
theorem scan_error_only_at_query (db : DB) (fault : ScanFault) (err : Error) :
    (∀ entries, GetOwners db fault = ScanOutcome.returned entries (some err) →
        fault = ScanFault.atQuery err ∧ entries = []) ∧
      (∀ entries, GetListings db fault = ScanOutcome.returned entries (some err) →
        fault = ScanFault.atQuery err ∧ entries = []) ∧
      (∀ n e, GetOwners db (ScanFault.duringIteration n e)
        = GetOwners (setCol db "owner" ((colHelper db "owner").take n)) ScanFault.none) ∧
      (∀ n e, GetListings db (ScanFault.duringIteration n e)
        = GetListings (setCol db "listing" ((colHelper db "listing").take n))
            ScanFault.none) := by
  refine ⟨?_, ?_, ?_, ?_⟩
  · intro entries h
    cases fault with
    | none => exact absurd h (GetOwners_loop_no_error _ _ _ _)
    | duringIteration n e => exact absurd h (GetOwners_loop_no_error _ _ _ _)
    | atQuery e =>
      simp only [GetOwners, Find, ScanOutcome.returned.injEq, Option.some.injEq] at h
      exact ⟨by rw [h.2], h.1.symm⟩
  · intro entries h
    cases fault with
    | none => exact absurd h (GetListings_loop_no_error _ _ _ _)
    | duringIteration n e => exact absurd h (GetListings_loop_no_error _ _ _ _)
    | atQuery e =>
      simp only [GetListings, Find, ScanOutcome.returned.injEq, Option.some.injEq] at h
      exact ⟨by rw [h.2], h.1.symm⟩
  · intro n e
    simp only [GetOwners, Find, colHelper_setCol]
  · intro n e
    simp only [GetListings, Find, colHelper_setCol]

/-- C3 fails on the code for a failure during iteration: with two owner
documents (two listing documents) in the store and a cursor that delivers one
document and then fails, `GetOwners` (`GetListings`) returns the one decoded
entry and a nil error; only a failure of the query itself is returned as an
error with no entries. -/
theorem scan_cursor_failure :
    GetOwners sampleDB cursorBreaks
      = ScanOutcome.returned
          [⟨"654a1b2c3d4e5f60718293a4", "Jane Doe", "jane@example.com", "555-0100"⟩] none ∧
    GetListings twoListingsDB cursorBreaks
      = ScanOutcome.returned
          [⟨"654a1b2c3d4e5f60718293a4", "654a1b2c3d4e5f60718293a4", "2BR apartment",
            "Downtown", ⟨0⟩, ""⟩] none ∧
    GetOwners sampleDB (ScanFault.atQuery (Error.store "connection reset"))
      = ScanOutcome.returned [] (some (Error.store "connection reset")) ∧
    GetListings twoListingsDB (ScanFault.atQuery (Error.store "connection reset"))
      = ScanOutcome.returned [] (some (Error.store "connection reset")) := by
  decide

theorem CreateOwner_no_error (db : DB) (input : NewOwner) (env : InsertEnv)
    (h : (CreateOwner db input env).2.2 = none) :
    (CreateOwner db input env).2 = (some (createdOwner (input, env)), none) ∧
      colHelper (CreateOwner db input env).1 "owner"
        = colHelper db "owner" ++ [ownerDoc (input, env)] := by
  cases hr : (InsertOne (colHelper db "owner") (marshalNewOwner input) env).2 with
  | error e => rw [CreateOwner_error db input env e hr] at h; simp at h
  | ok oid =>
    have hg : oid = env.generated := ((InsertOne_ok_iff _ _ _ _).1 hr).2.2
    subst hg
    rw [CreateOwner_ok db input env _ hr]
    exact ⟨rfl, colHelper_setCol _ _ _⟩

theorem createOwners_all_ok (db : DB) (calls : List (NewOwner × InsertEnv))
    (hok : ∀ r ∈ (createOwners db calls).2, r.2 = none) :
    colHelper (createOwners db calls).1 "owner"
        = colHelper db "owner" ++ calls.map ownerDoc ∧
      (createOwners db calls).2 = calls.map fun call => (some (createdOwner call), none) := by
  induction calls generalizing db with
  | nil => simp [createOwners]
  | cons call rest ih =>
    obtain ⟨input, env⟩ := call
    simp only [createOwners, List.mem_cons, forall_eq_or_imp] at hok
    obtain ⟨h1, h2⟩ := CreateOwner_no_error db input env hok.1
    obtain ⟨ih1, ih2⟩ := ih (CreateOwner db input env).1 hok.2
    simp only [createOwners, List.map_cons]
    refine ⟨?_, ?_⟩
    · rw [ih1, h2, List.append_assoc]; rfl
    · rw [ih2, h1]

theorem GetOwners_loop_created (calls : List (NewOwner × InsertEnv)) (acc : List Owner) :
    GetOwners.loop (calls.map ownerDoc) acc none
      = ScanOutcome.returned (acc ++ calls.map createdOwner) none := by
  induction calls generalizing acc with
  | nil => simp [GetOwners.loop]
  | cons call rest ih =>
    have hd : decodeOwner (ownerDoc call) = (createdOwner call, none) := rfl
    simp only [List.map_cons, GetOwners.loop, hd]
    rw [ih, List.append_assoc]
    rfl

/-- C8: starting from an empty owner collection, after any finite sequence of
successful `CreateOwner` calls a `GetOwners` without a store failure returns no
error and exactly one entry per call, each equal to the Owner its call
returned (name, email and phone of the input and the assigned identifier);
after no call at all the result is the empty sequence. -/
theorem GetOwners_after_creates (db : DB) (calls : List (NewOwner × InsertEnv))
    (hempty : colHelper db "owner" = [])
    (hok : ∀ r ∈ (createOwners db calls).2, r.2 = none) :
    GetOwners (createOwners db calls).1 ScanFault.none
        = ScanOutcome.returned (calls.map createdOwner) none ∧
      (createOwners db calls).2 = calls.map (fun call => (some (createdOwner call), none)) ∧
      (calls.map createdOwner).length = calls.length ∧
      GetOwners db ScanFault.none = ScanOutcome.returned [] none := by
  obtain ⟨hcol, hres⟩ := createOwners_all_ok db calls hok
  refine ⟨?_, hres, List.length_map _ _, ?_⟩
  · simp only [GetOwners, Find, hcol, hempty, List.nil_append, GetOwners_loop_created]
  · simp only [GetOwners, Find, hempty, GetOwners.loop]

theorem GetOwners_after_creates_witness :
    colHelper emptyDB "owner" = [] ∧
      (createOwners emptyDB [(janeDoe, acceptSample), (johnRoe, acceptOther)]).2
        = [(some ⟨"654a1b2c3d4e5f60718293a4", "Jane Doe", "jane@example.com", "555-0100"⟩,
              none),
           (some ⟨"654a1b2c3d4e5f60718293a5", "John Roe", "john@example.com", "555-0101"⟩,
              none)] ∧
      GetOwners (createOwners emptyDB [(janeDoe, acceptSample), (johnRoe, acceptOther)]).1
          ScanFault.none
        = ScanOutcome.returned
            ([(janeDoe, acceptSample), (johnRoe, acceptOther)].map createdOwner) none :=
  ⟨rfl, by decide,
    (GetOwners_after_creates emptyDB [(janeDoe, acceptSample), (johnRoe, acceptOther)] rfl
      (by decide)).1⟩

end ListingService
